import Mathlib

/-!
Verification development for the yad2 car-listings incremental synchronization
engine (`scraper.py`, `scraper_v2.py`, `facebook_scraper.py`).

The Python code manipulates JSON documents (snapshots of car listings) and
drives a bounded-concurrency fetch scheduler that reacts to CAPTCHA (Blocked)
signals.  We embed:

* `JVal` — JSON values; car records are JSON objects, modelled as
  insertion-ordered association lists exactly like Python dicts.
* `dumpsChars` — `json.dumps(..., sort_keys=True, ensure_ascii=False)` with
  the default separators, at the character-list level.
* `calculate_car_hash`, `load_previous_results`, `process_item` (its status
  classification block), the removed-items finalization loop, and
  `save_search_to_history`, each translated from the corresponding Python
  function.
* two scheduler models: `schedStep`/`schedRun` for the restart-and-resume
  loop of `scraper.py::run_search_async`, and `v2Results`/`v2Trace` for the
  as-completed loop of `scraper_v2.py::run_search_async`.

The MD5 digest is an external primitive; it is abstracted as a function
parameter `digest : String → String` (collision-resistance becomes an
injectivity hypothesis where a theorem needs it).
-/

/-- JSON values as produced by `json.load`.  Objects keep their key order,
like Python dicts (insertion order). -/
inductive JVal where
  | null : JVal
  | jbool : Bool → JVal
  | jint : Int → JVal
  | jstr : String → JVal
  | jarr : List JVal → JVal
  | jobj : List (String × JVal) → JVal

/-- A car record: a Python dict from string keys to JSON values. -/
abbrev CarDict := List (String × JVal)

/-- Dict read, `d.get(k)`: value at the first (hence unique) binding of `k`. -/
def dget (d : CarDict) (k : String) : Option JVal :=
  match d with
  | [] => none
  | (k', v) :: rest => if k' = k then some v else dget rest k

/-- Dict write, `d[k] = v`: replace the binding in place, or append. -/
def dset (d : CarDict) (k : String) (v : JVal) : CarDict :=
  match d with
  | [] => [(k, v)]
  | (k', v') :: rest => if k' = k then (k', v) :: rest else (k', v') :: dset rest k v

/-- `d.get(k, default)`. -/
def dgetD (d : CarDict) (k : String) (v : JVal) : JVal :=
  (dget d k).getD v

/-- Lookup in the `previous_results` mapping (dict from item id to record). -/
def pfind (prev : List (String × CarDict)) (k : String) : Option CarDict :=
  match prev with
  | [] => none
  | (k', v) :: rest => if k' = k then some v else pfind rest k

/-! ## Serialization: `json.dumps(..., sort_keys=True, ensure_ascii=False)` -/

/-- Decimal digit character, `chr(48 + d)`. -/
def dchar (d : Nat) : Char := Char.ofNat (48 + d)

/-- Decimal digit value of a character. -/
def dval (c : Char) : Nat := c.toNat - 48

/-- Lowercase hex digit character, as CPython's json encoder emits. -/
def hexDig (n : Nat) : Char := if n < 10 then Char.ofNat (48 + n) else Char.ofNat (87 + n)

/-- Decimal representation of a natural number, `str(n)`. -/
def natChars (n : Nat) : List Char :=
  if n = 0 then ['0'] else ((Nat.digits 10 n).map dchar).reverse

/-- Decimal representation of an integer, `str(i)` / json's integer output. -/
def intChars (i : Int) : List Char :=
  if i < 0 then '-' :: natChars i.natAbs else natChars i.toNat

/-- JSON string escaping of one character, per CPython's
`json.encoder.py_encode_basestring` with `ensure_ascii=False`: backslash and
quote are backslash-escaped, the named control characters use their short
escapes, remaining control characters use a `u00XX` escape, everything else
passes through unchanged. -/
def escChar (c : Char) : List Char :=
  if c = '"' then ['\\', '"']
  else if c = '\\' then ['\\', '\\']
  else if c = '\n' then ['\\', 'n']
  else if c = '\t' then ['\\', 't']
  else if c = '\r' then ['\\', 'r']
  else if c = Char.ofNat 8 then ['\\', 'b']
  else if c = Char.ofNat 12 then ['\\', 'f']
  else if c.toNat < 32 then ['\\', 'u', '0', '0', hexDig (c.toNat / 16), hexDig (c.toNat % 16)]
  else [c]

/-- JSON string escaping of a character list. -/
def escList : List Char → List Char
  | [] => []
  | c :: cs => escChar c ++ escList cs

/-- Stable insertion of a field into a key-sorted field list. -/
def insertSorted (p : String × JVal) (l : List (String × JVal)) : List (String × JVal) :=
  match l with
  | [] => [p]
  | q :: rest => if p.1 ≤ q.1 then p :: q :: rest else q :: insertSorted p rest

/-- `sorted(d.items())`: fields sorted by key (code-point lexicographic, as
Python sorts `str`), which is what `sort_keys=True` applies to an object. -/
def sortFields : List (String × JVal) → List (String × JVal)
  | [] => []
  | p :: rest => insertSorted p (sortFields rest)

mutual

/-- `json.dumps(v, ensure_ascii=False)` with the default separators
`", "` and `": "`, at the character level.  Object fields are dumped in the
given order; the single caller (`calculate_car_hash`) passes the flat
important-fields object through `sortFields` first, which reproduces
`sort_keys=True` exactly for that object (its four values are scalars in
every record the extractor produces, so no nested object is ever dumped). -/
def dumpsChars : JVal → List Char
  | .null => ['n', 'u', 'l', 'l']
  | .jbool true => ['t', 'r', 'u', 'e']
  | .jbool false => ['f', 'a', 'l', 's', 'e']
  | .jint i => intChars i
  | .jstr s => '"' :: (escList s.data ++ ['"'])
  | .jarr xs => '[' :: (dumpsArr xs ++ [']'])
  | .jobj fs => '\x7b' :: (dumpsObj fs ++ ['\x7d'])

/-- Comma-joined array elements. -/
def dumpsArr : List JVal → List Char
  | [] => []
  | [x] => dumpsChars x
  | x :: y :: xs => dumpsChars x ++ ',' :: ' ' :: dumpsArr (y :: xs)

/-- Comma-joined `"key": value` fields. -/
def dumpsObj : List (String × JVal) → List Char
  | [] => []
  | [(k, v)] => '"' :: escList k.data ++ '"' :: ':' :: ' ' :: dumpsChars v
  | (k, v) :: q :: fs =>
      ('"' :: escList k.data ++ '"' :: ':' :: ' ' :: dumpsChars v) ++
        ',' :: ' ' :: dumpsObj (q :: fs)

end

/-! ## `calculate_car_hash` (scraper.py:691, scraper_v2.py:380) -/

/-- `calculate_car_hash(car)`: md5 over the important-fields projection
serialized with sorted keys.  The md5 digest is an external primitive,
abstracted as `digest`. -/
def calculate_car_hash (digest : String → String) (car : CarDict) : String :=
  let important_fields : List (String × JVal) :=
    [("price", dgetD car "price" .null),
     ("mileage", dgetD car "mileage" .null),
     ("description", dgetD car "description" .null),
     ("location", dgetD car "location" .null)]
  let hash_str := String.mk (dumpsChars (.jobj (sortFields important_fields)))
  digest hash_str

/-! ## `load_previous_results` (scraper.py:677, scraper_v2.py:366,
facebook_scraper.py:43) -/

/-- What reading and JSON-parsing the snapshot file can yield: the file is
missing (`FileNotFoundError`), unreadable (some other `OSError`), or read,
in which case `json.load` either fails (`none`) or produces a value. -/
inductive FileRead where
  | notFound : FileRead
  | ioError : FileRead
  | content : Option JVal → FileRead

/-- Replace-or-append on the id-keyed mapping (Python dict assignment). -/
def psetEntry (m : List (String × CarDict)) (k : String) (v : CarDict) :
    List (String × CarDict) :=
  match m with
  | [] => [(k, v)]
  | (k', v') :: rest => if k' = k then (k', v) :: rest else (k', v') :: psetEntry rest k v

/-- The dict comprehension `{car['item_id']: car for car in cars if 'item_id'
in car}`.  Elements that are objects carrying a string `item_id` are keyed by
it (later duplicates overwrite earlier ones, as in a dict comprehension);
object elements without `item_id` are skipped by the `if` guard.  Non-object
elements and non-string ids are dropped here: in Python most such shapes
raise `TypeError`; no caller ever produces them. -/
def carsToMapping (cars : List JVal) : List (String × CarDict) :=
  cars.foldl
    (fun acc car =>
      match car with
      | .jobj d =>
          match dget d "item_id" with
          | some (.jstr k) => psetEntry acc k d
          | _ => acc
      | _ => acc)
    []

/-- `load_previous_results(output_file)`.  Only `FileNotFoundError` is
caught (yielding the empty mapping); an unreadable file or invalid JSON
propagates the exception, modelled as `Except.error`.  A dict document
contributes its `cars` array, a bare list document is the array itself, any
other JSON document yields no cars. -/
def load_previous_results (file : FileRead) : Except String (List (String × CarDict)) :=
  match file with
  | .notFound => .ok []
  | .ioError => .error "OSError"
  | .content none => .error "json.JSONDecodeError"
  | .content (some data) =>
    match data with
    | .jobj fields =>
        match dget fields "cars" with
        | some (.jarr cars) => .ok (carsToMapping cars)
        | some _ => .error "TypeError"
        | none => .ok (carsToMapping [])
    | .jarr cars => .ok (carsToMapping cars)
    | _ => .ok (carsToMapping [])

/-! ## `process_item` status classification (scraper.py:870-914,
scraper_v2.py:569-598) -/

/-- Integer value of a JSON value; `update_count` arithmetic.  The engine
only ever stores integers under `update_count`; any other value would be a
`TypeError` in Python. -/
def asInt : JVal → Int
  | .jint n => n
  | _ => 0

/-- Python's `old_hash != new_hash` is false exactly when the stored hash is
the same string as the recomputed one (a missing or non-string stored hash
always compares unequal). -/
def hashMatches (old_hash : Option JVal) (new_hash : String) : Bool :=
  match old_hash with
  | some (.jstr s) => s == new_hash
  | _ => false

/-- The `# Status logic` block of `process_item`, applied to the extracted
and feed-merged record `car0` for reference `item_id`.  The page fetch,
CAPTCHA detection and field extraction that precede it belong to the
external Raw Record Source and are modelled by the scheduler's outcome
oracle. -/
def process_item_status (digest : String → String)
    (previous_results : List (String × CarDict)) (current_timestamp : String)
    (is_first_run : Bool) (item_id : String) (car0 : CarDict) : CarDict :=
  let car := dset car0 "item_id" (.jstr item_id)
  match pfind previous_results item_id with
  | some old_car =>
    let old_hash := dget old_car "content_hash"
    let new_hash := calculate_car_hash digest car
    if hashMatches old_hash new_hash = false then
      let car := dset car "status" (.jstr "updated")
      let car := dset car "last_update" (.jstr current_timestamp)
      let car := dset car "first_seen" (dgetD old_car "first_seen" (.jstr current_timestamp))
      let car := dset car "update_count" (.jint (asInt (dgetD old_car "update_count" (.jint 0)) + 1))
      dset car "content_hash" (.jstr new_hash)
    else
      let car := dset car "status" (.jstr "active")
      let car := dset car "last_update" (dgetD old_car "last_update" (.jstr current_timestamp))
      let car := dset car "first_seen" (dgetD old_car "first_seen" (.jstr current_timestamp))
      let car := dset car "update_count" (dgetD old_car "update_count" (.jint 0))
      dset car "content_hash" (.jstr new_hash)
  | none =>
    let car :=
      if is_first_run then dset car "status" (.jstr "active")
      else dset car "status" (.jstr "new")
    let car := dset car "first_seen" (.jstr current_timestamp)
    let car := dset car "last_update" (.jstr current_timestamp)
    let car := dset car "update_count" (.jint 0)
    dset car "content_hash" (.jstr (calculate_car_hash digest car))

/-- `is_first_run = len(previous_results) == 0` (scraper.py:993). -/
def isFirstRun (previous_results : List (String × CarDict)) : Bool :=
  previous_results.isEmpty

/-! ## Removed-items finalization (scraper.py:1153-1161,
scraper_v2.py:772-779) -/

/-- `old_car.get('status') != 'removed'` negated. -/
def statusIsRemoved (car : CarDict) : Bool :=
  match dget car "status" with
  | some (.jstr s) => s == "removed"
  | _ => false

/-- The item id stored in a result record (always a string set by
`process_item`). -/
def carItemId (car : CarDict) : Option String :=
  match dget car "item_id" with
  | some (.jstr s) => some s
  | _ => none

/-- The `# Handle removed items` loop: every prior entry whose id was not
found this run and whose status is not already `removed` is stamped
`removed`/`removed_date` and appended to `results`; prior entries already
`removed` and still unseen are *not* appended. -/
def handle_removed_items (previous_results : List (String × CarDict))
    (results : List CarDict) (current_timestamp : String) : List CarDict :=
  let found_ids := results.filterMap carItemId
  results ++
    previous_results.filterMap
      (fun entry =>
        if found_ids.contains entry.1 = false ∧ statusIsRemoved entry.2 = false then
          some (dset (dset entry.2 "status" (.jstr "removed")) "removed_date"
                  (.jstr current_timestamp))
        else none)

/-- The snapshot document written by `run_search_async` (scraper.py:1164,
scraper_v2.py:782). -/
structure SnapshotDoc where
  search_url : String
  last_scraped : String
  total_cars_scraped : Nat
  cars : List CarDict

/-! ## `save_search_to_history` (scraper.py:46-79) -/

/-- The four components of a saved search (`f"{manufacturer} {model} {year}
{km}"`; year and km are rendered by the f-string). -/
structure SearchInfo where
  manufacturer : String
  model : String
  year : String
  km : String

/-- The search string stored in the history. -/
def searchString (info : SearchInfo) : String :=
  info.manufacturer ++ " " ++ info.model ++ " " ++ info.year ++ " " ++ info.km

/-- The list transformation of `save_search_to_history`: drop existing
occurrences of the new string, prepend it, keep the first 10. -/
def save_search_to_history (last_searches : List String) (info : SearchInfo) :
    List String :=
  let search_str := searchString info
  let filtered := last_searches.filter (fun s => s ≠ search_str)
  (search_str :: filtered).take 10

/-! ## Fetch loop of `scraper_v2.py::run_search_async` (lines 744-791) -/

/-- One completed `process_item` task as the `as_completed` loop sees it. -/
inductive V2Outcome where
  | success : CarDict → V2Outcome
  | captcha : V2Outcome
  | fetchError : String → V2Outcome

/-- The results accumulated by the `as_completed` loop, given the task
outcomes in completion order: successes are appended until the first
CAPTCHA outcome, which cancels the remaining tasks and breaks; non-CAPTCHA
errors are logged and skipped. -/
def v2Results : List V2Outcome → List CarDict
  | [] => []
  | .success c :: rest => c :: v2Results rest
  | .captcha :: _ => []
  | .fetchError _ :: rest => v2Results rest

/-- The completion events the loop actually consumes (everything up to and
including the first CAPTCHA). -/
def v2Consumed : List V2Outcome → List V2Outcome
  | [] => []
  | .captcha :: _ => [.captcha]
  | o :: rest => o :: v2Consumed rest

/-- The cars in the snapshot persisted at run end. -/
def v2FinalCars (previous_results : List (String × CarDict))
    (comps : List V2Outcome) (current_timestamp : String) : List CarDict :=
  handle_removed_items previous_results (v2Results comps) current_timestamp

/-- Observable events of one `run_search_async` invocation: completed
fetches, and snapshot writes. -/
inductive RunEvent where
  | fetched : V2Outcome → RunEvent
  | saved : SnapshotDoc → RunEvent

/-- The event trace of `scraper_v2.py::run_search_async` after the item list
is known: the consumed fetch completions, then the single `json.dump` of
the output document at run end.  There is no other write to the snapshot
file anywhere in the function. -/
def v2Trace (url : String) (previous_results : List (String × CarDict))
    (comps : List V2Outcome) (current_timestamp : String) : List RunEvent :=
  let cars := v2FinalCars previous_results comps current_timestamp
  (v2Consumed comps).map .fetched ++
    [.saved ⟨url, current_timestamp, cars.length, cars⟩]

/-! ## Restart-and-resume scheduler of `scraper.py::run_search_async`
(lines 1074-1151)

The scheduler keeps at most `C` outstanding tasks over the item list
`0..n-1`; as each completes it admits the next index.  A CAPTCHA outcome
cancels all in-flight tasks, rebuilds the browser context and resets the
next index to the CAPTCHA item's own index (`idx = i`).  We model one task
completion per step; which in-flight task completes is chosen by the
schedule (`p` = position in the running list), and the outcome of item `i`'s
`a`-th attempt is given by the oracle `co i a` (attempt counts are
bookkeeping for the oracle; the Python code does not track them).  A
successful completion appends the item's index to `results`, standing for
the fetched record of that reference. -/

/-- Outcome of one completed `process_item` task in the scraper.py model. -/
inductive AOutcome where
  | success : AOutcome
  | captcha : AOutcome
  | fetchError : AOutcome

/-- Scheduler state: next index to admit, in-flight task indices in start
order, accumulated results (by item index), per-item attempt counts, and
the number of browser rebuilds performed. -/
structure SchedState where
  idx : Nat
  running : List Nat
  results : List Nat
  att : List Nat
  restarts : Nat
deriving DecidableEq, Repr

/-- The `while idx < len(...) and len(running) < concurrency` refill loop. -/
def refill (n C : Nat) (s : SchedState) : SchedState :=
  let k := min (C - s.running.length) (n - s.idx)
  { s with running := s.running ++ List.range' s.idx k, idx := s.idx + k }

/-- Initial state: prime up to `C` tasks (scraper.py:1090-1092). -/
def initSched (n C : Nat) : SchedState :=
  refill n C ⟨0, [], [], List.replicate n 0, 0⟩

/-- One completed task: position `p` of the running list finishes (out of
range defaults to the oldest task).  Success appends the item and refills;
a non-CAPTCHA error just refills; CAPTCHA cancels everything, counts a
browser rebuild, resets `idx` to the failed item's index and refills. -/
def schedStep (co : Nat → Nat → AOutcome) (n C : Nat) (p : Nat) (s : SchedState) :
    SchedState :=
  match s.running with
  | [] => s
  | _ =>
    let q := if p < s.running.length then p else 0
    let i := s.running.getD q 0
    let rest := s.running.eraseIdx q
    let a := s.att.getD i 0
    let s1 := { s with att := s.att.set i (a + 1) }
    match co i a with
    | .success => refill n C { s1 with running := rest, results := s1.results ++ [i] }
    | .fetchError => refill n C { s1 with running := rest }
    | .captcha =>
        refill n C { s1 with running := [], idx := i, restarts := s1.restarts + 1 }

/-- Run the scheduler along a completion schedule; the loop exits when no
task is in flight. -/
def schedRun (co : Nat → Nat → AOutcome) (n C : Nat) :
    List Nat → SchedState → SchedState
  | [], s => s
  | p :: ps, s =>
      if s.running.isEmpty then s else schedRun co n C ps (schedStep co n C p s)

/-! ## Remaining definitions used by the theorems -/

/-- The record carried by a successful v2 task outcome. -/
def v2SuccessCar : V2Outcome → Option CarDict
  | .success c => some c
  | _ => none

/-- Whether an event is a snapshot write. -/
def isSaveEvent : RunEvent → Bool
  | .saved _ => true
  | _ => false

/-- Whether an outcome list contains a CAPTCHA signal. -/
def hasCaptcha (comps : List V2Outcome) : Bool :=
  comps.any fun o => match o with | .captcha => true | _ => false

/-- Outcome oracle for a run in which reference `k` reports CAPTCHA on its
first attempt and every other fetch (including `k`'s retry) succeeds. -/
def c1Outcomes (k : Nat) : Nat → Nat → AOutcome :=
  fun i a => if i = k ∧ a = 0 then .captcha else .success

/-- The scheduler state whose window of in-flight tasks starts at `a`:
`min (a + C) n` references have been admitted and those from `a` on are
still in flight.  Every reachable state of `schedRun` between completions
has this shape when completions happen in submission order. -/
def windowState (n C a : Nat) (res : List Nat) (att : List Nat) (r : Nat) :
    SchedState :=
  ⟨min (a + C) n, List.range' a (min (a + C) n - a), res, att, r⟩

/-- Python `.get(k)` projection used by `calculate_car_hash`: the stored
value, or JSON null for a missing key (Python `None`). -/
def proj (car : CarDict) (k : String) : JVal :=
  dgetD car k .null

/-- Scalar JSON values: what the extractor actually stores in the four
important fields (a number, a string, or Python `None`). -/
def isScalarB : JVal → Bool
  | .null => true
  | .jint _ => true
  | .jstr _ => true
  | _ => false

/-! ### Decoder for the serialized important-fields object

A left inverse of `dumpsChars` on the documents `calculate_car_hash`
serializes, used to prove that the serialization is injective on the
important-fields projection (so distinct projections give distinct md5
inputs).  These definitions are proof devices, not translations of source
code. -/

/-- Hex digit value (lowercase), inverse of `hexDig`. -/
def hexVal (c : Char) : Nat :=
  if c.toNat ≤ 57 then c.toNat - 48 else c.toNat - 87

/-- Undo `escChar`-escaping. -/
def unescape : List Char → Option (List Char)
  | [] => some []
  | c :: rest =>
    if c ≠ '\\' then (unescape rest).map (c :: ·)
    else
      match rest with
      | [] => none
      | d :: rest2 =>
        if d = '"' then (unescape rest2).map ('"' :: ·)
        else if d = '\\' then (unescape rest2).map ('\\' :: ·)
        else if d = 'n' then (unescape rest2).map ('\n' :: ·)
        else if d = 't' then (unescape rest2).map ('\t' :: ·)
        else if d = 'r' then (unescape rest2).map ('\r' :: ·)
        else if d = 'b' then (unescape rest2).map (Char.ofNat 8 :: ·)
        else if d = 'f' then (unescape rest2).map (Char.ofNat 12 :: ·)
        else if d = 'u' then
          match rest2 with
          | a :: b :: d1 :: d2 :: rest3 =>
            if a = '0' ∧ b = '0' then
              (unescape rest3).map (Char.ofNat (16 * hexVal d1 + hexVal d2) :: ·)
            else none
          | _ => none
        else none

/-- Scan an escaped string body up to its closing quote; a backslash
consumes the following character. -/
def takeStringBody : List Char → Option (List Char × List Char)
  | [] => none
  | c :: rest =>
    if c = '"' then some ([], rest)
    else if c = '\\' then
      match rest with
      | [] => none
      | d :: rest2 => (takeStringBody rest2).map (fun p => (c :: d :: p.1, p.2))
    else (takeStringBody rest).map (fun p => (c :: p.1, p.2))

/-- Characters that end an unquoted scalar token inside the object. -/
def isSepChar (c : Char) : Bool := c = ',' || c = '\x7d'

/-- Split off the longest separator-free prefix. -/
def splitTok : List Char → List Char × List Char
  | [] => ([], [])
  | c :: cs =>
    if isSepChar c then ([], c :: cs)
    else ((splitTok cs).1.cons c, (splitTok cs).2)

/-- Is this a decimal digit character? -/
def isDigitChar (c : Char) : Bool := '0' ≤ c && c ≤ '9'

/-- Parse an all-digit token back to the natural number it displays. -/
def parseNatChars (ds : List Char) : Option Nat :=
  if ds ≠ [] ∧ ds.all isDigitChar then
    some (Nat.ofDigits 10 ((ds.map dval).reverse))
  else none

/-- Parse an optionally minus-signed digit token. -/
def parseIntChars (ds : List Char) : Option Int :=
  match ds with
  | [] => none
  | c :: cs =>
    if c = '-' then (parseNatChars cs).map (fun n => -(n : Int))
    else (parseNatChars (c :: cs)).map (fun n => (n : Int))

/-- Whether the remainder starts with a token separator. -/
def headIsSep : List Char → Bool
  | [] => false
  | c :: _ => isSepChar c

/-- Consume an expected literal prefix. -/
def expectChars : List Char → List Char → Option (List Char)
  | [], cs => some cs
  | _ :: _, [] => none
  | l :: ls, c :: cs => if c = l then expectChars ls cs else none

/-- Read one scalar value (string, null, or integer) off the front. -/
def readScalar (cs : List Char) : Option (JVal × List Char) :=
  match cs with
  | [] => none
  | c :: cs' =>
    if c = '"' then
      match takeStringBody cs' with
      | some (body, rest) =>
          match unescape body with
          | some s => some (.jstr (String.mk s), rest)
          | none => none
      | none => none
    else if c = 'n' then
      match expectChars ['u', 'l', 'l'] cs' with
      | some rest => some (.null, rest)
      | none => none
    else
      match parseIntChars (splitTok (c :: cs')).1 with
      | some i => some (.jint i, (splitTok (c :: cs')).2)
      | none => none

/-- The serialized form of one `"key": ` field header. -/
def fieldHdr (k : String) : List Char :=
  '"' :: escList k.data ++ ['"', ':', ' ']

/-- Decode the four important-field values back out of the serialized
object. -/
def readImportant (cs : List Char) : Option (JVal × JVal × JVal × JVal) :=
  match expectChars ('\x7b' :: fieldHdr "description") cs with
  | none => none
  | some cs1 =>
    match readScalar cs1 with
    | none => none
    | some (vd, cs2) =>
      match expectChars (',' :: ' ' :: fieldHdr "location") cs2 with
      | none => none
      | some cs3 =>
        match readScalar cs3 with
        | none => none
        | some (vl, cs4) =>
          match expectChars (',' :: ' ' :: fieldHdr "mileage") cs4 with
          | none => none
          | some cs5 =>
            match readScalar cs5 with
            | none => none
            | some (vm, cs6) =>
              match expectChars (',' :: ' ' :: fieldHdr "price") cs6 with
              | none => none
              | some cs7 =>
                match readScalar cs7 with
                | none => none
                | some (vp, cs8) =>
                  match expectChars ['\x7d'] cs8 with
                  | some [] => some (vd, vl, vm, vp)
                  | _ => none

/-! ## Basic dictionary lemmas -/

theorem dget_dset_self (d : CarDict) (k : String) (v : JVal) :
    dget (dset d k v) k = some v := by
  induction d with
  | nil => simp [dget, dset]
  | cons hd tl ih =>
    obtain ⟨k', v'⟩ := hd
    by_cases h : k' = k <;> simp [dget, dset, h, ih]

theorem dget_dset_ne (d : CarDict) (k k2 : String) (v : JVal) (h : k ≠ k2) :
    dget (dset d k v) k2 = dget d k2 := by
  induction d with
  | nil => simp [dget, dset, h]
  | cons hd tl ih =>
    obtain ⟨k', v'⟩ := hd
    by_cases h' : k' = k
    · subst h'
      simp [dget, dset, h]
    · simp only [dset, if_neg h']
      by_cases h2 : k' = k2 <;> simp [dget, h2, ih]

/-! ## Claim C6 — first-run bootstrap -/

/-- Claim C6: on a run whose loaded prior mapping is empty (so
`is_first_run` holds), every successfully fetched item is classified
`active` — never `new` — with `first_seen` set to the run timestamp and
`update_count = 0`. -/
theorem c6_first_run_bootstrap (digest : String → String) (now item_id : String)
    (car0 : CarDict) :
    dget (process_item_status digest [] now (isFirstRun []) item_id car0) "status" =
      some (.jstr "active") ∧
    dget (process_item_status digest [] now (isFirstRun []) item_id car0) "status" ≠
      some (.jstr "new") ∧
    dget (process_item_status digest [] now (isFirstRun []) item_id car0) "first_seen" =
      some (.jstr now) ∧
    dget (process_item_status digest [] now (isFirstRun []) item_id car0) "update_count" =
      some (.jint 0) := by
  have hstatus :
      dget (process_item_status digest [] now (isFirstRun []) item_id car0) "status" =
        some (.jstr "active") := by
    simp [process_item_status, pfind, isFirstRun, dget_dset_self, dget_dset_ne]
  refine ⟨hstatus, ?_, ?_, ?_⟩
  · rw [hstatus]
    simp
  · simp [process_item_status, pfind, isFirstRun, dget_dset_self, dget_dset_ne]
  · simp [process_item_status, pfind, isFirstRun, dget_dset_self, dget_dset_ne]

/-! ## Claim C10 — search history -/

/-- Claim C10 (amended): after saving a search, the stored list starts with
the new search string, contains it exactly once, has length at most 10, and
the remaining entries are previously stored searches in their original
relative order; if the previously stored list was duplicate-free (as every
list this function produces is), the result is duplicate-free.  (The claim's
unconditional no-duplicates property fails when the configuration file
already holds duplicates — see the counterexample.) -/
theorem c10_search_history (l : List String) (info : SearchInfo) :
    (save_search_to_history l info).head? = some (searchString info) ∧
    (save_search_to_history l info).count (searchString info) = 1 ∧
    (save_search_to_history l info).length ≤ 10 ∧
    (save_search_to_history l info).tail.Sublist l ∧
    (l.Nodup → (save_search_to_history l info).Nodup) := by
  have hres : save_search_to_history l info =
      searchString info ::
        (l.filter (fun x => x ≠ searchString info)).take 9 := rfl
  have hcount0 : (l.filter (fun x => x ≠ searchString info)).count (searchString info) = 0 := by
    rw [List.count_eq_zero]
    intro hmem
    have := (List.mem_filter.mp hmem).2
    simp at this
  have hnotmem : searchString info ∉ (l.filter (fun x => x ≠ searchString info)).take 9 := by
    intro hmem
    have := (List.mem_filter.mp (List.take_subset _ _ hmem)).2
    simp at this
  refine ⟨by rw [hres]; rfl, ?_, ?_, ?_, ?_⟩
  · rw [hres, List.count_cons_self]
    have hle := List.Sublist.count_le (List.take_sublist 9 (l.filter (fun x => x ≠ searchString info))) (searchString info)
    omega
  · rw [hres]
    simp only [List.length_cons, List.length_take]
    omega
  · rw [hres]
    exact (List.take_sublist _ _).trans (List.filter_sublist l)
  · intro hnd
    rw [hres, List.nodup_cons]
    exact ⟨hnotmem, ((hnd.filter _).sublist (List.take_sublist _ _))⟩

/-- A configuration whose stored history already holds duplicates keeps
them: the claim's unconditional "contains no duplicate entries" is false.
The prior list `["a", "a"]` does not mention the new search, so both copies
survive. -/
theorem c10_search_history_counterexample :
    save_search_to_history ["a", "a"] ⟨"b", "c", "1", "2"⟩ = ["b c 1 2", "a", "a"] ∧
    ¬ (save_search_to_history ["a", "a"] ⟨"b", "c", "1", "2"⟩).Nodup := by
  constructor
  · decide
  · decide

/-- Witness for `c10_search_history` at a concrete configuration. -/
theorem c10_search_history_witness :
    (save_search_to_history ["x"] ⟨"m", "n", "2020", "50000"⟩).head? =
      some (searchString ⟨"m", "n", "2020", "50000"⟩) ∧
    (save_search_to_history ["x"] ⟨"m", "n", "2020", "50000"⟩).Nodup := by
  have h := c10_search_history ["x"] ⟨"m", "n", "2020", "50000"⟩
  exact ⟨h.1, h.2.2.2.2 (by decide)⟩

/-! ## Claim C4 — snapshot loading -/

/-- A malformed snapshot file is fatal: `load_previous_results` catches only
`FileNotFoundError`, so invalid JSON (and an unreadable file) propagates an
exception instead of yielding the empty mapping the claim promises. -/
theorem c4_load_counterexample :
    load_previous_results (.content none) = .error "json.JSONDecodeError" ∧
    load_previous_results .ioError = .error "OSError" ∧
    load_previous_results (.content none) ≠ .ok [] := by
  refine ⟨rfl, rfl, ?_⟩
  simp [load_previous_results]

/-- Claim C4 (amended): loading returns the empty mapping when the snapshot
file is missing, so only that case proceeds as a first-ever run; an
unreadable file or invalid JSON propagates the exception.  Every
successfully parsed document loads without error: a bare array is used
directly and a dict contributes its `cars` array, keyed by item id. -/
theorem c4_load_amended :
    load_previous_results .notFound = .ok ([] : List (String × CarDict)) ∧
    load_previous_results .ioError = .error "OSError" ∧
    load_previous_results (.content none) = .error "json.JSONDecodeError" ∧
    (∀ cars : List JVal,
      load_previous_results (.content (some (.jarr cars))) = .ok (carsToMapping cars)) ∧
    (∀ fields cars, dget fields "cars" = some (.jarr cars) →
      load_previous_results (.content (some (.jobj fields))) = .ok (carsToMapping cars)) := by
  refine ⟨rfl, rfl, rfl, fun cars => rfl, fun fields cars h => ?_⟩
  simp [load_previous_results, h]

/-- Witness for `c4_load_amended` on a concrete enveloped document. -/
theorem c4_load_witness :
    load_previous_results (.content (some (.jobj [("cars", .jarr [])]))) = .ok [] :=
  c4_load_amended.2.2.2.2 [("cars", JVal.jarr [])] [] rfl

/-! ## Claim C3 — retention of unseen prior entries -/

/-- Stamping `status`/`removed_date` does not change the stored item id. -/
theorem carItemId_stamped (old : CarDict) (now : String) :
    carItemId (dset (dset old "status" (.jstr "removed")) "removed_date" (.jstr now)) =
      carItemId old := by
  unfold carItemId
  rw [dget_dset_ne _ _ _ _ (by decide), dget_dset_ne _ _ _ _ (by decide)]

/-- In a mapping with duplicate-free keys, an entry is determined by its
key. -/
theorem entry_eq_of_keys_nodup (prior : List (String × CarDict))
    (hnd : (prior.map Prod.fst).Nodup) (id : String) (old : CarDict)
    (e : String × CarDict) (h1 : (id, old) ∈ prior) (h2 : e ∈ prior)
    (hk : e.1 = id) : e = (id, old) := by
  induction prior with
  | nil => cases h1
  | cons hd tl ih =>
    rw [List.map_cons, List.nodup_cons] at hnd
    rcases List.mem_cons.mp h1 with h1' | h1' <;>
      rcases List.mem_cons.mp h2 with h2' | h2'
    · rw [h2', ← h1']
    · exfalso
      apply hnd.1
      have hmem2 := List.mem_map_of_mem Prod.fst h2'
      rw [hk] at hmem2
      rw [← h1']
      exact hmem2
    · exfalso
      apply hnd.1
      rw [← h2', hk]
      exact List.mem_map_of_mem Prod.fst h1'
    · exact ih hnd.2 h1' h2'

/-- A prior entry that was already `removed` and stays unseen is dropped
from the finalized snapshot: with one prior entry `X` already `removed` and
no fetched results, the persisted car list is empty — `X` is physically
deleted, contradicting the claim's retention guarantee. -/
theorem c3_removed_retention_counterexample :
    handle_removed_items
        [("X", [("item_id", JVal.jstr "X"), ("status", JVal.jstr "removed")])] [] "t2" = [] ∧
    pfind [("X", [("item_id", JVal.jstr "X"), ("status", JVal.jstr "removed")])] "X" =
      some [("item_id", JVal.jstr "X"), ("status", JVal.jstr "removed")] := by
  exact ⟨rfl, rfl⟩

/-- Claim C3 (amended): at finalization, every prior entry whose id was not
observed this run and whose status is not yet `removed` is kept in the
persisted snapshot, transitioned to `removed` with a removal timestamp; but
a prior entry already `removed` and still unseen is dropped — no record
with its id remains in the finalized list (rather than being retained
unchanged, as the claim states). -/
theorem c3_removed_retention (prior : List (String × CarDict)) (results : List CarDict)
    (now id : String) (old : CarDict)
    (hmem : (id, old) ∈ prior)
    (hunseen : (results.filterMap carItemId).contains id = false) :
    (statusIsRemoved old = false →
      dset (dset old "status" (.jstr "removed")) "removed_date" (.jstr now) ∈
        handle_removed_items prior results now) ∧
    (statusIsRemoved old = true →
      (∀ e ∈ prior, carItemId e.2 = some e.1) →
      (prior.map Prod.fst).Nodup →
      ∀ c ∈ handle_removed_items prior results now, carItemId c ≠ some id) := by
  constructor
  · intro hnotrem
    unfold handle_removed_items
    refine List.mem_append_right _ (List.mem_filterMap.mpr ⟨(id, old), hmem, ?_⟩)
    rw [if_pos ⟨hunseen, hnotrem⟩]
  · intro hrem hkeys hnd c hc hcontra
    rcases List.mem_append.mp hc with hcres | hcrem
    · have hidmem : id ∈ results.filterMap carItemId :=
        List.mem_filterMap.mpr ⟨c, hcres, hcontra⟩
      have : (results.filterMap carItemId).contains id = true := by
        simpa using hidmem
      rw [this] at hunseen
      cases hunseen
    · obtain ⟨e, hemem, he⟩ := List.mem_filterMap.mp hcrem
      by_cases hcond :
          ((results.filterMap carItemId).contains e.1 = false ∧ statusIsRemoved e.2 = false)
      · rw [if_pos hcond, Option.some_inj] at he
        have hkc : carItemId c = some e.1 := by
          rw [← he, carItemId_stamped]
          exact hkeys e hemem
        have hek : e.1 = id := by
          rw [hkc] at hcontra
          exact Option.some_inj.mp hcontra
        have := entry_eq_of_keys_nodup prior hnd id old e hmem hemem hek
        rw [this] at hcond
        rw [hrem] at hcond
        cases hcond.2
      · rw [if_neg hcond] at he
        cases he

/-- Witness for `c3_removed_retention` on a concrete one-entry snapshot. -/
theorem c3_removed_retention_witness :
    dset (dset [("item_id", JVal.jstr "A")] "status" (.jstr "removed")) "removed_date"
        (.jstr "t") ∈
      handle_removed_items [("A", [("item_id", JVal.jstr "A")])] [] "t" :=
  (c3_removed_retention [("A", [("item_id", JVal.jstr "A")])] [] "t" "A"
      [("item_id", JVal.jstr "A")] (by simp) rfl).1 rfl

/-! ## Claim C5 — classification of re-fetched known items -/

/-- No change note exists: the classification of a re-fetched item reads
only the prior entry's `content_hash`, `first_seen`, `last_update` and
`update_count` — two prior entries that differ in their stored price (the
before-value any price change note would have to record) produce *identical*
output entries, so no before/after note is appended anywhere. -/
theorem c5_update_classification_counterexample :
    process_item_status (fun _ => "g")
        [("X", [("content_hash", JVal.jstr "h"), ("price", JVal.jint 100),
                ("first_seen", JVal.jstr "t0"), ("update_count", JVal.jint 3),
                ("last_update", JVal.jstr "t0")])]
        "t1" false "X" [("price", JVal.jstr "500")] =
      process_item_status (fun _ => "g")
        [("X", [("content_hash", JVal.jstr "h"), ("price", JVal.jint 200),
                ("first_seen", JVal.jstr "t0"), ("update_count", JVal.jint 3),
                ("last_update", JVal.jstr "t0")])]
        "t1" false "X" [("price", JVal.jstr "500")] ∧
    dget [("content_hash", JVal.jstr "h"), ("price", JVal.jint 100),
          ("first_seen", JVal.jstr "t0"), ("update_count", JVal.jint 3),
          ("last_update", JVal.jstr "t0")] "price" ≠
      dget [("content_hash", JVal.jstr "h"), ("price", JVal.jint 200),
            ("first_seen", JVal.jstr "t0"), ("update_count", JVal.jint 3),
            ("last_update", JVal.jstr "t0")] "price" := by
  constructor
  · rfl
  · simp [dget]

/-- Claim C5 (amended): for a fetched record whose id is in the prior
snapshot, if the new fingerprint equals the stored one the entry is
`active` with `first_seen`, `update_count`, `last_update` carried over
unchanged; if it differs the entry is `updated` with `update_count`
incremented by exactly one, `last_update` set to the run timestamp and
`first_seen` carried over.  In both cases `content_hash` becomes the new
fingerprint.  No change note is appended to any history — the engine keeps
none (see the counterexample). -/
theorem c5_update_classification (digest : String → String)
    (prev : List (String × CarDict)) (id now hOld : String) (old car0 : CarDict)
    (fs lu : JVal) (u : Int) (first_run : Bool)
    (hfind : pfind prev id = some old)
    (hh : dget old "content_hash" = some (.jstr hOld))
    (hfs : dget old "first_seen" = some fs)
    (hlu : dget old "last_update" = some lu)
    (huc : dget old "update_count" = some (.jint u)) :
    (hOld = calculate_car_hash digest (dset car0 "item_id" (.jstr id)) →
      dget (process_item_status digest prev now first_run id car0) "status" =
          some (.jstr "active") ∧
      dget (process_item_status digest prev now first_run id car0) "first_seen" = some fs ∧
      dget (process_item_status digest prev now first_run id car0) "update_count" =
          some (.jint u) ∧
      dget (process_item_status digest prev now first_run id car0) "last_update" = some lu) ∧
    (hOld ≠ calculate_car_hash digest (dset car0 "item_id" (.jstr id)) →
      dget (process_item_status digest prev now first_run id car0) "status" =
          some (.jstr "updated") ∧
      dget (process_item_status digest prev now first_run id car0) "update_count" =
          some (.jint (u + 1)) ∧
      dget (process_item_status digest prev now first_run id car0) "last_update" =
          some (.jstr now) ∧
      dget (process_item_status digest prev now first_run id car0) "first_seen" =
          some fs) := by
  constructor
  · intro heq
    refine ⟨?_, ?_, ?_, ?_⟩ <;>
      simp [process_item_status, hfind, hashMatches, hh, heq, dgetD, hfs, hlu, huc,
        dget_dset_self, dget_dset_ne]
  · intro hne
    refine ⟨?_, ?_, ?_, ?_⟩ <;>
      simp [process_item_status, hfind, hashMatches, hh, hne, dgetD, hfs, hlu, huc,
        asInt, dget_dset_self, dget_dset_ne]

/-- Witness for `c5_update_classification`: a concrete prior entry whose
stored hash does not match the recomputed one is classified `updated` with
its counter bumped from 3 to 4. -/
theorem c5_update_classification_witness :
    dget (process_item_status (fun _ => "g")
        [("X", [("content_hash", JVal.jstr "h"), ("first_seen", JVal.jstr "t0"),
                ("update_count", JVal.jint 3), ("last_update", JVal.jstr "t0")])]
        "t1" false "X" []) "status" = some (.jstr "updated") ∧
    dget (process_item_status (fun _ => "g")
        [("X", [("content_hash", JVal.jstr "h"), ("first_seen", JVal.jstr "t0"),
                ("update_count", JVal.jint 3), ("last_update", JVal.jstr "t0")])]
        "t1" false "X" []) "update_count" = some (.jint 4) := by
  have h := (c5_update_classification (fun _ => "g")
      [("X", [("content_hash", JVal.jstr "h"), ("first_seen", JVal.jstr "t0"),
              ("update_count", JVal.jint 3), ("last_update", JVal.jstr "t0")])]
      "X" "t1" "h"
      [("content_hash", JVal.jstr "h"), ("first_seen", JVal.jstr "t0"),
       ("update_count", JVal.jint 3), ("last_update", JVal.jstr "t0")]
      [] (JVal.jstr "t0") (JVal.jstr "t0") 3 false rfl rfl rfl rfl rfl).2
      (by decide)
  exact ⟨h.1, h.2.1⟩

/-! ## Claim C8 — legacy bare-array snapshots -/

/-- Membership after a dict-comprehension update. -/
theorem mem_psetEntry (m : List (String × CarDict)) (k : String) (v : CarDict) :
    ∀ e ∈ psetEntry m k v, e = (k, v) ∨ e ∈ m := by
  induction m with
  | nil => simp [psetEntry]
  | cons hd tl ih =>
    intro e he
    obtain ⟨k', v'⟩ := hd
    by_cases h : k' = k
    · rw [psetEntry, if_pos h] at he
      rcases List.mem_cons.mp he with h' | h'
      · left
        rw [h', h]
      · right
        exact List.mem_cons_of_mem _ h'
    · rw [psetEntry, if_neg h] at he
      rcases List.mem_cons.mp he with h' | h'
      · right
        rw [h']
        exact List.mem_cons_self _ _
      · rcases ih e h' with h'' | h''
        · exact Or.inl h''
        · exact Or.inr (List.mem_cons_of_mem _ h'')

/-- Every entry of the loaded mapping is keyed by the record's own
`item_id`. -/
theorem carsToMapping_keyed (cars : List JVal) :
    ∀ e ∈ carsToMapping cars, carItemId e.2 = some e.1 := by
  suffices h : ∀ (cars : List JVal) (acc : List (String × CarDict)),
      (∀ e ∈ acc, carItemId e.2 = some e.1) →
      ∀ e ∈ cars.foldl
        (fun acc car =>
          match car with
          | .jobj d =>
              match dget d "item_id" with
              | some (.jstr k) => psetEntry acc k d
              | _ => acc
          | _ => acc) acc, carItemId e.2 = some e.1 by
    exact h cars [] (by simp)
  intro cars
  induction cars with
  | nil => intro acc hacc e he; exact hacc e he
  | cons car rest ih =>
    intro acc hacc e he
    rw [List.foldl_cons] at he
    refine ih _ ?_ e he
    match car with
    | .null | .jbool _ | .jint _ | .jstr _ | .jarr _ => exact hacc
    | .jobj d =>
      simp only
      match hid : dget d "item_id" with
      | some (.jstr k) =>
        intro e' he'
        rcases mem_psetEntry acc k d e' he' with h' | h'
        · rw [h']
          simp [carItemId, hid]
        · exact hacc e' h'
      | some .null | some (.jbool _) | some (.jint _) | some (.jarr _) | some (.jobj _)
      | none => exact hacc

/-- A legacy snapshot that is a bare array of raw records (no stored
fingerprint) loads fine, but on the next run an *unchanged* record is
classified `updated` (with `update_count` bumped to 1), not `active`: the
stored entry has no `content_hash`, and a missing hash never matches.
Conjunct 2 shows the re-fetched record's important fields are identical to
the stored ones (same fingerprint under the identity digest); conjunct 3
shows the classification is nevertheless `updated`. -/
theorem c8_legacy_bare_array_counterexample :
    load_previous_results
        (.content (some (.jarr [.jobj [("item_id", JVal.jstr "X"), ("price", JVal.jstr "p")]]))) =
      .ok [("X", [("item_id", JVal.jstr "X"), ("price", JVal.jstr "p")])] ∧
    calculate_car_hash (fun s => s) [("item_id", JVal.jstr "X"), ("price", JVal.jstr "p")] =
      calculate_car_hash (fun s => s) (dset [("price", JVal.jstr "p")] "item_id" (.jstr "X")) ∧
    dget (process_item_status (fun s => s)
        [("X", [("item_id", JVal.jstr "X"), ("price", JVal.jstr "p")])]
        "t" false "X" [("price", JVal.jstr "p")]) "status" = some (.jstr "updated") := by
  refine ⟨rfl, rfl, rfl⟩

/-- Claim C8 (amended): a legacy document that is a bare array of records
loads successfully into a mapping keyed by each record's item id.  On the
first re-run, entries are classified purely by fingerprint comparison:
an entry with no stored `content_hash` (a bare raw record) is classified
`updated` — not `active` — with `update_count` defaulted to 0 and then
incremented to 1, even when its content is unchanged. -/
theorem c8_legacy_bare_array (digest : String → String)
    (prev : List (String × CarDict)) (id now : String) (old car0 : CarDict)
    (first_run : Bool)
    (hfind : pfind prev id = some old)
    (hnoh : dget old "content_hash" = none)
    (hnuc : dget old "update_count" = none) :
    (∀ cars : List JVal,
      load_previous_results (.content (some (.jarr cars))) = .ok (carsToMapping cars)) ∧
    (∀ cars : List JVal, ∀ e ∈ carsToMapping cars, carItemId e.2 = some e.1) ∧
    dget (process_item_status digest prev now first_run id car0) "status" =
      some (.jstr "updated") ∧
    dget (process_item_status digest prev now first_run id car0) "update_count" =
      some (.jint 1) := by
  refine ⟨fun cars => rfl, fun cars => carsToMapping_keyed cars, ?_, ?_⟩ <;>
    simp [process_item_status, hfind, hashMatches, hnoh, dgetD, hnuc, asInt,
      dget_dset_self, dget_dset_ne]

/-- Witness for `c8_legacy_bare_array` on a concrete raw-record entry. -/
theorem c8_legacy_bare_array_witness :
    dget (process_item_status (fun s => s)
        [("Y", [("item_id", JVal.jstr "Y")])] "t" false "Y" []) "status" =
      some (.jstr "updated") ∧
    dget (process_item_status (fun s => s)
        [("Y", [("item_id", JVal.jstr "Y")])] "t" false "Y" []) "update_count" =
      some (.jint 1) := by
  have h := c8_legacy_bare_array (fun s => s) [("Y", [("item_id", JVal.jstr "Y")])]
    "Y" "t" [("item_id", JVal.jstr "Y")] [] false rfl rfl rfl
  exact ⟨h.2.2.1, h.2.2.2⟩

/-! ## Claim C2 — retry budget -/

/-- There is no retry budget: with a single reference whose fetch is
CAPTCHA-blocked on every attempt, the `scraper.py` scheduler performs one
pause-rebuild-resume cycle per step without bound — after 5 completions it
has rebuilt the browser 5 times, the reference is in flight again, no
result has been accumulated, and nothing ever terminates the loop.  This
refutes the claim's "repeats at most R times; after R retries the run
terminates". -/
theorem c2_retry_budget_counterexample :
    (schedRun (fun _ _ => AOutcome.captcha) 1 1 [0, 0, 0, 0, 0] (initSched 1 1)).restarts = 5 ∧
    (schedRun (fun _ _ => AOutcome.captcha) 1 1 [0, 0, 0, 0, 0] (initSched 1 1)).running = [0] ∧
    (schedRun (fun _ _ => AOutcome.captcha) 1 1 [0, 0, 0, 0, 0] (initSched 1 1)).results = [] ∧
    schedStep (fun _ _ => AOutcome.captcha) 1 1 0 (initSched 1 1) =
      { initSched 1 1 with att := [1], restarts := 1 } := by
  refine ⟨by decide, by decide, by decide, by decide⟩

/-- Claim C2 (amended): neither scraper has a retry budget `R`.
`scraper.py` retries without bound (see the counterexample), while
`scraper_v2.py` never resumes at all: the first Blocked signal cancels the
remaining tasks and ends the fetch phase, every result accumulated before
it is kept, later completions are discarded, and the snapshot persisted at
run end contains exactly those accumulated results plus the removal-marked
prior entries — never zero accumulated work. -/
theorem c2_blocked_persistence (prior : List (String × CarDict))
    (pre post : List V2Outcome) (now : String)
    (hpre : hasCaptcha pre = false) :
    v2Results (pre ++ .captcha :: post) = pre.filterMap v2SuccessCar ∧
    v2FinalCars prior (pre ++ .captcha :: post) now =
      handle_removed_items prior (pre.filterMap v2SuccessCar) now ∧
    ∀ c ∈ pre.filterMap v2SuccessCar, c ∈ v2FinalCars prior (pre ++ .captcha :: post) now := by
  have hres : v2Results (pre ++ .captcha :: post) = pre.filterMap v2SuccessCar := by
    induction pre with
    | nil => rfl
    | cons o rest ih =>
      match o with
      | .success c =>
        rw [List.cons_append, v2Results]
        rw [List.filterMap_cons]
        simp only [v2SuccessCar]
        rw [ih (by simpa [hasCaptcha] using hpre)]
      | .captcha => simp [hasCaptcha] at hpre
      | .fetchError msg =>
        rw [List.cons_append, v2Results]
        rw [List.filterMap_cons]
        simp only [v2SuccessCar]
        exact ih (by simpa [hasCaptcha] using hpre)
  refine ⟨hres, ?_, ?_⟩
  · unfold v2FinalCars
    rw [hres]
  · intro c hc
    unfold v2FinalCars handle_removed_items
    rw [hres]
    exact List.mem_append_left _ hc

/-- Witness for `c2_blocked_persistence`: one success before the Blocked
signal survives into the persisted snapshot; the success after it is
discarded. -/
theorem c2_blocked_persistence_witness :
    v2Results ([.success [("item_id", JVal.jstr "a")], .fetchError "boom"] ++
        .captcha :: [.success [("item_id", JVal.jstr "b")]]) =
      [[("item_id", JVal.jstr "a")]] ∧
    [("item_id", JVal.jstr "a")] ∈
      v2FinalCars [] ([.success [("item_id", JVal.jstr "a")], .fetchError "boom"] ++
        .captcha :: [.success [("item_id", JVal.jstr "b")]]) "t" := by
  have h := c2_blocked_persistence [] [.success [("item_id", JVal.jstr "a")], .fetchError "boom"]
    [.success [("item_id", JVal.jstr "b")]] "t" rfl
  exact ⟨h.1, h.2.2 _ (by simp [v2SuccessCar])⟩

/-! ## Claim C9 — incremental persistence -/

/-- Fetch-completion events are not snapshot writes. -/
theorem filter_save_map_fetched (l : List V2Outcome) :
    ((l.map RunEvent.fetched).filter isSaveEvent) = [] := by
  induction l with
  | nil => rfl
  | cons o rest ih => simp [isSaveEvent, ih]

/-- A run that completes two fetches writes the snapshot file exactly once,
and only as its final action — there is no per-batch write, so the claim's
"persisted after each completed batch" is false and a crash mid-run loses
every result of the run. -/
theorem c9_incremental_save_counterexample :
    ((v2Trace "u" [] [.success [("item_id", JVal.jstr "a")],
        .success [("item_id", JVal.jstr "b")]] "t").filter isSaveEvent).length = 1 ∧
    ((v2Trace "u" [] [.success [("item_id", JVal.jstr "a")],
        .success [("item_id", JVal.jstr "b")]] "t").filter
          (fun e => !isSaveEvent e)).length = 2 ∧
    (v2Trace "u" [] [.success [("item_id", JVal.jstr "a")],
        .success [("item_id", JVal.jstr "b")]] "t").getLast? =
      some (.saved ⟨"u", "t", 2,
        [[("item_id", JVal.jstr "a")], [("item_id", JVal.jstr "b")]]⟩) := by
  refine ⟨rfl, rfl, rfl⟩

/-- Claim C9 (amended): every run writes the snapshot file exactly once, at
run end after removal-marking, as the final event of the run; no
intermediate persistence happens, so a crash mid-run loses all of the
run's results (the previous snapshot file is simply left in place). -/
theorem c9_single_save (url now : String) (prior : List (String × CarDict))
    (comps : List V2Outcome) :
    ((v2Trace url prior comps now).filter isSaveEvent).length = 1 ∧
    (v2Trace url prior comps now).getLast? =
      some (.saved ⟨url, now, (v2FinalCars prior comps now).length,
        v2FinalCars prior comps now⟩) ∧
    v2FinalCars prior comps now = handle_removed_items prior (v2Results comps) now := by
  refine ⟨?_, ?_, rfl⟩
  · unfold v2Trace
    rw [List.filter_append, filter_save_map_fetched]
    rfl
  · unfold v2Trace
    rw [List.getLast?_concat]

/-! ## Claim C7 — roundtrip lemmas for the serialized important fields -/

theorem expectChars_append (l r : List Char) : expectChars l (l ++ r) = some r := by
  induction l with
  | nil => rfl
  | cons c cs ih => simp [expectChars, ih]

theorem dval_dchar (d : Nat) (h : d < 10) : dval (dchar d) = d := by
  interval_cases d <;> decide

theorem isDigitChar_dchar (d : Nat) (h : d < 10) : isDigitChar (dchar d) = true := by
  interval_cases d <;> decide

theorem natChars_all_digits (n : Nat) : (natChars n).all isDigitChar = true := by
  rw [List.all_eq_true]
  intro c hc
  unfold natChars at hc
  by_cases h0 : n = 0
  · rw [h0] at hc
    simp at hc
    rw [hc]
    decide
  · rw [if_neg h0, List.mem_reverse, List.mem_map] at hc
    obtain ⟨d, hd, rfl⟩ := hc
    exact isDigitChar_dchar d (Nat.digits_lt_base (by norm_num) hd)

theorem natChars_ne_nil (n : Nat) : natChars n ≠ [] := by
  unfold natChars
  by_cases h0 : n = 0
  · simp [h0]
  · rw [if_neg h0]
    simp [Nat.digits_ne_nil_iff_ne_zero, h0]

theorem parseNatChars_natChars (n : Nat) : parseNatChars (natChars n) = some n := by
  unfold parseNatChars
  rw [if_pos ⟨natChars_ne_nil n, natChars_all_digits n⟩]
  congr 1
  by_cases h0 : n = 0
  · rw [h0]
    decide
  · unfold natChars
    rw [if_neg h0, List.map_reverse, List.reverse_reverse, List.map_map]
    have hmap : (Nat.digits 10 n).map (dval ∘ dchar) = Nat.digits 10 n := by
      have hpt : ∀ d ∈ Nat.digits 10 n, (dval ∘ dchar) d = id d := fun d hd =>
        dval_dchar d (Nat.digits_lt_base (by norm_num) hd)
      rw [List.map_congr_left hpt, List.map_id]
    rw [hmap, Nat.ofDigits_digits]

theorem natChars_head_digit (n : Nat) :
    ∃ c cs, natChars n = c :: cs ∧ isDigitChar c = true := by
  obtain ⟨c, cs, hc⟩ := List.exists_cons_of_ne_nil (natChars_ne_nil n)
  refine ⟨c, cs, hc, ?_⟩
  have := natChars_all_digits n
  rw [List.all_eq_true] at this
  exact this c (hc ▸ List.mem_cons_self c cs)

theorem parseIntChars_intChars (i : Int) : parseIntChars (intChars i) = some i := by
  unfold intChars
  by_cases hneg : i < 0
  · rw [if_pos hneg]
    have hstep : parseIntChars ('-' :: natChars i.natAbs) =
        (parseNatChars (natChars i.natAbs)).map (fun n => -(n : Int)) := rfl
    rw [hstep, parseNatChars_natChars]
    exact congrArg some (show -(i.natAbs : Int) = i by omega)
  · rw [if_neg hneg]
    obtain ⟨c, cs, hc, hdig⟩ := natChars_head_digit i.toNat
    have hcne : c ≠ '-' := by
      intro h
      rw [h] at hdig
      cases hdig
    rw [hc]
    have hstep : parseIntChars (c :: cs) =
        (parseNatChars (c :: cs)).map (fun n => (n : Int)) := by
      show (if c = '-' then (parseNatChars cs).map (fun n => -(n : Int))
            else (parseNatChars (c :: cs)).map (fun n => (n : Int))) = _
      rw [if_neg hcne]
    rw [hstep, ← hc, parseNatChars_natChars]
    exact congrArg some (show ((i.toNat : Int)) = i by omega)

theorem hexVal_hexDig (m : Nat) (h : m < 16) : hexVal (hexDig m) = m := by
  interval_cases m <;> decide

theorem hexDig_ne_quote (m : Nat) (h : m < 16) : hexDig m ≠ '"' := by
  interval_cases m <;> decide

theorem hexDig_ne_backslash (m : Nat) (h : m < 16) : hexDig m ≠ '\\' := by
  interval_cases m <;> decide

theorem unescape_escChar (c : Char) (rest : List Char) :
    unescape (escChar c ++ rest) = (unescape rest).map (c :: ·) := by
  by_cases h1 : c = '"'
  · subst h1
    conv_lhs => rw [unescape.eq_def]
    simp [escChar]
  by_cases h2 : c = '\\'
  · subst h2
    conv_lhs => rw [unescape.eq_def]
    simp [escChar]
  by_cases h3 : c = '\n'
  · subst h3
    conv_lhs => rw [unescape.eq_def]
    simp [escChar]
  by_cases h4 : c = '\t'
  · subst h4
    conv_lhs => rw [unescape.eq_def]
    simp [escChar]
  by_cases h5 : c = '\r'
  · subst h5
    conv_lhs => rw [unescape.eq_def]
    simp [escChar]
  by_cases h6 : c = Char.ofNat 8
  · subst h6
    conv_lhs => rw [unescape.eq_def]
    simp [escChar]
  by_cases h7 : c = Char.ofNat 12
  · subst h7
    conv_lhs => rw [unescape.eq_def]
    simp [escChar]
  by_cases h8 : c.toNat < 32
  · have hchar :
        Char.ofNat (16 * hexVal (hexDig (c.toNat / 16)) + hexVal (hexDig (c.toNat % 16))) = c := by
      rw [hexVal_hexDig _ (by omega), hexVal_hexDig _ (Nat.mod_lt _ (by norm_num)),
        Nat.div_add_mod]
      exact Char.ofNat_toNat c
    have hch : escChar c = ['\\', 'u', '0', '0', hexDig (c.toNat / 16), hexDig (c.toNat % 16)] := by
      unfold escChar
      rw [if_neg h1, if_neg h2, if_neg h3, if_neg h4, if_neg h5, if_neg h6, if_neg h7, if_pos h8]
    rw [hch]
    conv_lhs => rw [unescape.eq_def]
    simp [hchar]
  · have hch : escChar c = [c] := by
      unfold escChar
      rw [if_neg h1, if_neg h2, if_neg h3, if_neg h4, if_neg h5, if_neg h6, if_neg h7, if_neg h8]
    rw [hch]
    conv_lhs => rw [unescape.eq_def]
    simp [h2]

theorem unescape_escList (s : List Char) : unescape (escList s) = some s := by
  induction s with
  | nil => rfl
  | cons c cs ih =>
    show unescape (escChar c ++ escList cs) = _
    rw [unescape_escChar, ih]
    rfl

theorem takeStringBody_cons_normal (c : Char) (h1 : c ≠ '"') (h2 : c ≠ '\\')
    (t : List Char) :
    takeStringBody (c :: t) = (takeStringBody t).map (fun p => (c :: p.1, p.2)) := by
  conv_lhs => rw [takeStringBody.eq_def]
  simp [h1, h2]

theorem takeStringBody_cons_escape (d : Char) (t : List Char) :
    takeStringBody ('\\' :: d :: t) =
      (takeStringBody t).map (fun p => ('\\' :: d :: p.1, p.2)) := by
  conv_lhs => rw [takeStringBody.eq_def]
  simp

theorem takeStringBody_escChar (c : Char) (t : List Char) :
    takeStringBody (escChar c ++ t) =
      (takeStringBody t).map (fun p => (escChar c ++ p.1, p.2)) := by
  by_cases h1 : c = '"'
  · subst h1
    exact takeStringBody_cons_escape '"' t
  by_cases h2 : c = '\\'
  · subst h2
    exact takeStringBody_cons_escape '\\' t
  by_cases h3 : c = '\n'
  · subst h3
    exact takeStringBody_cons_escape 'n' t
  by_cases h4 : c = '\t'
  · subst h4
    exact takeStringBody_cons_escape 't' t
  by_cases h5 : c = '\r'
  · subst h5
    exact takeStringBody_cons_escape 'r' t
  by_cases h6 : c = Char.ofNat 8
  · subst h6
    exact takeStringBody_cons_escape 'b' t
  by_cases h7 : c = Char.ofNat 12
  · subst h7
    exact takeStringBody_cons_escape 'f' t
  by_cases h8 : c.toNat < 32
  · have hch : escChar c = ['\\', 'u', '0', '0', hexDig (c.toNat / 16), hexDig (c.toNat % 16)] := by
      unfold escChar
      rw [if_neg h1, if_neg h2, if_neg h3, if_neg h4, if_neg h5, if_neg h6, if_neg h7, if_pos h8]
    have hdiv : c.toNat / 16 < 16 := by omega
    have hmod : c.toNat % 16 < 16 := Nat.mod_lt _ (by norm_num)
    rw [hch]
    rw [show (['\\', 'u', '0', '0', hexDig (c.toNat / 16), hexDig (c.toNat % 16)] ++ t : List Char) =
        '\\' :: 'u' :: '0' :: '0' :: hexDig (c.toNat / 16) :: hexDig (c.toNat % 16) :: t from rfl]
    rw [takeStringBody_cons_escape 'u' _]
    rw [takeStringBody_cons_normal '0' (by decide) (by decide)]
    rw [takeStringBody_cons_normal '0' (by decide) (by decide)]
    rw [takeStringBody_cons_normal _ (hexDig_ne_quote _ hdiv) (hexDig_ne_backslash _ hdiv)]
    rw [takeStringBody_cons_normal _ (hexDig_ne_quote _ hmod) (hexDig_ne_backslash _ hmod)]
    cases htsb : takeStringBody t with
    | none => simp
    | some p => simp
  · have hch : escChar c = [c] := by
      unfold escChar
      rw [if_neg h1, if_neg h2, if_neg h3, if_neg h4, if_neg h5, if_neg h6, if_neg h7, if_neg h8]
    rw [hch]
    exact takeStringBody_cons_normal c h1 h2 t

theorem takeStringBody_escList (s t : List Char) :
    takeStringBody (escList s ++ '"' :: t) = some (escList s, t) := by
  induction s with
  | nil =>
    show takeStringBody ('"' :: t) = some ([], t)
    conv_lhs => rw [takeStringBody.eq_def]
    simp
  | cons c cs ih =>
    rw [show escList (c :: cs) = escChar c ++ escList cs from rfl, List.append_assoc,
      takeStringBody_escChar, ih]
    rfl

theorem splitTok_append (tok rest : List Char) (htok : ∀ c ∈ tok, isSepChar c = false)
    (hrest : headIsSep rest = true) : splitTok (tok ++ rest) = (tok, rest) := by
  induction tok with
  | nil =>
    match rest, hrest with
    | c :: r', hr =>
      have hc : isSepChar c = true := hr
      show splitTok (c :: r') = ([], c :: r')
      simp [splitTok, hc]
  | cons c cs ih =>
    have hc : isSepChar c = false := htok c (List.mem_cons_self c cs)
    have ih' := ih (fun x hx => htok x (List.mem_cons_of_mem _ hx))
    show splitTok (c :: (cs ++ rest)) = (c :: cs, rest)
    simp [splitTok, hc, ih']

theorem intChars_no_sep (i : Int) : ∀ c ∈ intChars i, isSepChar c = false := by
  intro c hc
  have hdig_or : isDigitChar c = true ∨ c = '-' := by
    unfold intChars at hc
    by_cases hneg : i < 0
    · rw [if_pos hneg] at hc
      rcases List.mem_cons.mp hc with h | h
      · right
        exact h
      · left
        exact (List.all_eq_true.mp (natChars_all_digits _)) c h
    · rw [if_neg hneg] at hc
      left
      exact (List.all_eq_true.mp (natChars_all_digits _)) c hc
  rcases hdig_or with h | h
  · by_cases hc1 : c = ','
    · rw [hc1] at h
      exact absurd h (by decide)
    by_cases hc2 : c = '\x7d'
    · rw [hc2] at h
      exact absurd h (by decide)
    simp [isSepChar, hc1, hc2]
  · rw [h]
    decide

theorem intChars_head (i : Int) :
    ∃ c cs, intChars i = c :: cs ∧ (isDigitChar c = true ∨ c = '-') := by
  unfold intChars
  by_cases hneg : i < 0
  · rw [if_pos hneg]
    exact ⟨'-', _, rfl, Or.inr rfl⟩
  · rw [if_neg hneg]
    obtain ⟨c, cs, hc, hd⟩ := natChars_head_digit i.toNat
    exact ⟨c, cs, hc, Or.inl hd⟩

theorem readScalar_other (c : Char) (h1 : c ≠ '"') (h2 : c ≠ 'n') (cs : List Char) :
    readScalar (c :: cs) =
      match parseIntChars (splitTok (c :: cs)).1 with
      | some j => some (.jint j, (splitTok (c :: cs)).2)
      | none => none := by
  conv_lhs => rw [readScalar.eq_def]
  simp [h1, h2]

theorem readScalar_dumps (v : JVal) (hv : isScalarB v = true) (rest : List Char)
    (hsep : headIsSep rest = true) :
    readScalar (dumpsChars v ++ rest) = some (v, rest) := by
  match v with
  | .null => rfl
  | .jstr s =>
    obtain ⟨sd⟩ := s
    have h1 : dumpsChars (.jstr ⟨sd⟩) ++ rest = '"' :: (escList sd ++ ('"' :: rest)) := by
      show ('"' :: (escList sd ++ ['"'])) ++ rest = _
      simp
    rw [h1]
    have h2 : readScalar ('"' :: (escList sd ++ ('"' :: rest))) =
        match takeStringBody (escList sd ++ ('"' :: rest)) with
        | some (body, r) =>
            match unescape body with
            | some s => some (.jstr (String.mk s), r)
            | none => none
        | none => none := rfl
    rw [h2, takeStringBody_escList]
    show (match unescape (escList sd) with
          | some s => some (JVal.jstr (String.mk s), rest)
          | none => none) = _
    rw [unescape_escList]
  | .jint i =>
    obtain ⟨c, cs, hc, hcd⟩ := intChars_head i
    have hq : c ≠ '"' := by
      rcases hcd with h | h
      · intro he
        rw [he] at h
        exact absurd h (by decide)
      · rw [h]
        decide
    have hn : c ≠ 'n' := by
      rcases hcd with h | h
      · intro he
        rw [he] at h
        exact absurd h (by decide)
      · rw [h]
        decide
    have hform : dumpsChars (.jint i) ++ rest = c :: (cs ++ rest) := by
      rw [show dumpsChars (.jint i) = intChars i from rfl, hc]
      rfl
    have hback : c :: (cs ++ rest) = intChars i ++ rest := by
      rw [hc]
      rfl
    rw [hform, readScalar_other c hq hn, hback,
      splitTok_append _ _ (intChars_no_sep i) hsep, parseIntChars_intChars]
  | .jbool b => simp [isScalarB] at hv
  | .jarr xs => simp [isScalarB] at hv
  | .jobj fs => simp [isScalarB] at hv

theorem sortFields_important (p m d l : JVal) :
    sortFields [("price", p), ("mileage", m), ("description", d), ("location", l)] =
      [("description", d), ("location", l), ("mileage", m), ("price", p)] := by
  simp [sortFields, insertSorted]
  rw [if_neg (by decide : ¬ (['p','r','i','c','e'] ≤ ['d','e','s','c','r','i','p','t','i','o','n']))]
  rw [if_neg (by decide : ¬ (['p','r','i','c','e'] ≤ ['l','o','c','a','t','i','o','n']))]
  rw [if_neg (by decide : ¬ (['p','r','i','c','e'] ≤ ['m','i','l','e','a','g','e']))]

theorem dumpsChars_important (v1 v2 v3 v4 : JVal) :
    dumpsChars (.jobj [("description", v1), ("location", v2), ("mileage", v3), ("price", v4)]) =
      ('\x7b' :: fieldHdr "description") ++ (dumpsChars v1 ++
        ((',' :: ' ' :: fieldHdr "location") ++ (dumpsChars v2 ++
          ((',' :: ' ' :: fieldHdr "mileage") ++ (dumpsChars v3 ++
            ((',' :: ' ' :: fieldHdr "price") ++ (dumpsChars v4 ++ ['\x7d']))))))) := by
  simp [dumpsChars, dumpsObj, fieldHdr]

theorem readImportant_dumps (v1 v2 v3 v4 : JVal)
    (h1 : isScalarB v1 = true) (h2 : isScalarB v2 = true)
    (h3 : isScalarB v3 = true) (h4 : isScalarB v4 = true) :
    readImportant (dumpsChars
      (.jobj [("description", v1), ("location", v2), ("mileage", v3), ("price", v4)])) =
      some (v1, v2, v3, v4) := by
  rw [dumpsChars_important]
  have e1 := expectChars_append ('\x7b' :: fieldHdr "description")
    (dumpsChars v1 ++ ((',' :: ' ' :: fieldHdr "location") ++ (dumpsChars v2 ++
      ((',' :: ' ' :: fieldHdr "mileage") ++ (dumpsChars v3 ++
        ((',' :: ' ' :: fieldHdr "price") ++ (dumpsChars v4 ++ ['\x7d'])))))))
  have r1 := readScalar_dumps v1 h1 ((',' :: ' ' :: fieldHdr "location") ++ (dumpsChars v2 ++
      ((',' :: ' ' :: fieldHdr "mileage") ++ (dumpsChars v3 ++
        ((',' :: ' ' :: fieldHdr "price") ++ (dumpsChars v4 ++ ['\x7d'])))))) rfl
  have e2 := expectChars_append (',' :: ' ' :: fieldHdr "location") (dumpsChars v2 ++
      ((',' :: ' ' :: fieldHdr "mileage") ++ (dumpsChars v3 ++
        ((',' :: ' ' :: fieldHdr "price") ++ (dumpsChars v4 ++ ['\x7d'])))))
  have r2 := readScalar_dumps v2 h2 ((',' :: ' ' :: fieldHdr "mileage") ++ (dumpsChars v3 ++
        ((',' :: ' ' :: fieldHdr "price") ++ (dumpsChars v4 ++ ['\x7d'])))) rfl
  have e3 := expectChars_append (',' :: ' ' :: fieldHdr "mileage") (dumpsChars v3 ++
        ((',' :: ' ' :: fieldHdr "price") ++ (dumpsChars v4 ++ ['\x7d'])))
  have r3 := readScalar_dumps v3 h3 ((',' :: ' ' :: fieldHdr "price") ++
        (dumpsChars v4 ++ ['\x7d'])) rfl
  have e4 := expectChars_append (',' :: ' ' :: fieldHdr "price") (dumpsChars v4 ++ ['\x7d'])
  have r4 := readScalar_dumps v4 h4 ['\x7d'] rfl
  have e5 : expectChars ['\x7d'] ['\x7d'] = some [] := rfl
  simp only [readImportant, e1, r1, e2, r2, e3, r3, e4, r4, e5]

/-- Claim C7: the fingerprint is deterministic over the important-field
projection — two records whose `.get` projections of `price`, `mileage`,
`description`, `location` coincide hash identically, regardless of any
other field and of field insertion order (the record is an insertion-ordered
dict); and two records differing in one of those projected scalar values
serialize to different md5 inputs, hence yield different fingerprints for
any injective (collision-free) digest. -/
theorem c7_fingerprint (digest : String → String) :
    (∀ r1 r2 : CarDict,
      proj r1 "price" = proj r2 "price" →
      proj r1 "mileage" = proj r2 "mileage" →
      proj r1 "description" = proj r2 "description" →
      proj r1 "location" = proj r2 "location" →
      calculate_car_hash digest r1 = calculate_car_hash digest r2) ∧
    (Function.Injective digest →
      ∀ r1 r2 : CarDict,
      isScalarB (proj r1 "price") = true → isScalarB (proj r1 "mileage") = true →
      isScalarB (proj r1 "description") = true → isScalarB (proj r1 "location") = true →
      isScalarB (proj r2 "price") = true → isScalarB (proj r2 "mileage") = true →
      isScalarB (proj r2 "description") = true → isScalarB (proj r2 "location") = true →
      ¬ (proj r1 "price" = proj r2 "price" ∧ proj r1 "mileage" = proj r2 "mileage" ∧
         proj r1 "description" = proj r2 "description" ∧
         proj r1 "location" = proj r2 "location") →
      calculate_car_hash digest r1 ≠ calculate_car_hash digest r2) := by
  have hhash : ∀ r : CarDict, calculate_car_hash digest r =
      digest (String.mk (dumpsChars (.jobj
        [("description", proj r "description"), ("location", proj r "location"),
         ("mileage", proj r "mileage"), ("price", proj r "price")]))) := by
    intro r
    show digest (String.mk (dumpsChars (.jobj (sortFields
      [("price", dgetD r "price" .null), ("mileage", dgetD r "mileage" .null),
       ("description", dgetD r "description" .null),
       ("location", dgetD r "location" .null)])))) = _
    rw [sortFields_important]
    rfl
  constructor
  · intro r1 r2 hp hm hd hl
    rw [hhash r1, hhash r2, hp, hm, hd, hl]
  · intro hinj r1 r2 s1p s1m s1d s1l s2p s2m s2d s2l hne heq
    apply hne
    rw [hhash r1, hhash r2] at heq
    have heq2 := hinj heq
    have heq3 : dumpsChars (.jobj
        [("description", proj r1 "description"), ("location", proj r1 "location"),
         ("mileage", proj r1 "mileage"), ("price", proj r1 "price")]) =
      dumpsChars (.jobj
        [("description", proj r2 "description"), ("location", proj r2 "location"),
         ("mileage", proj r2 "mileage"), ("price", proj r2 "price")]) := by
      injection heq2
    have hr1 := readImportant_dumps (proj r1 "description") (proj r1 "location")
      (proj r1 "mileage") (proj r1 "price") s1d s1l s1m s1p
    have hr2 := readImportant_dumps (proj r2 "description") (proj r2 "location")
      (proj r2 "mileage") (proj r2 "price") s2d s2l s2m s2p
    rw [heq3, hr2] at hr1
    injection hr1 with htup
    rw [Prod.mk.injEq, Prod.mk.injEq, Prod.mk.injEq] at htup
    exact ⟨htup.2.2.2.symm, htup.2.2.1.symm, htup.1.symm, htup.2.1.symm⟩

/-- Witness for `c7_fingerprint`: identical price projections (despite
different extra fields and insertion orders) hash identically under the
identity digest, while differing prices hash differently. -/
theorem c7_fingerprint_witness :
    calculate_car_hash (fun s => s) [("price", JVal.jstr "100"), ("title", JVal.jstr "A")] =
      calculate_car_hash (fun s => s) [("title", JVal.jstr "B"), ("price", JVal.jstr "100")] ∧
    calculate_car_hash (fun s => s) [("price", JVal.jstr "100")] ≠
      calculate_car_hash (fun s => s) [("price", JVal.jstr "120")] := by
  constructor
  · exact (c7_fingerprint (fun s => s)).1 _ _ rfl rfl rfl rfl
  · exact (c7_fingerprint (fun s => s)).2 Function.injective_id _ _
      rfl rfl rfl rfl rfl rfl rfl rfl (by simp [proj, dgetD, dget])

/-! ## Claim C1 — resume after a Blocked signal -/

theorem getD_set_of_ne (l : List Nat) (i j x : Nat) (h : i ≠ j) :
    (l.set i x).getD j 0 = l.getD j 0 := by
  induction l generalizing i j with
  | nil => rfl
  | cons hd tl ih =>
    cases i with
    | zero =>
      cases j with
      | zero => exact absurd rfl h
      | succ j' => rfl
    | succ i' =>
      cases j with
      | zero => rfl
      | succ j' => exact ih i' j' (fun he => h (by rw [he]))

theorem getD_set_self (l : List Nat) (i x : Nat) (h : i < l.length) :
    (l.set i x).getD i 0 = x := by
  induction l generalizing i with
  | nil => simp at h
  | cons hd tl ih =>
    cases i with
    | zero => rfl
    | succ i' => exact ih i' (by simpa using h)

theorem getD_replicate (n j : Nat) : (List.replicate n 0).getD j 0 = 0 := by
  induction n generalizing j with
  | zero => cases j <;> rfl
  | succ n' ih =>
    cases j with
    | zero => rfl
    | succ j' => exact ih j'

theorem range'_cons_of_pos (a m : Nat) (h : 0 < m) :
    List.range' a m = a :: List.range' (a + 1) (m - 1) := by
  rw [show m = (m - 1) + 1 from by omega]
  rw [List.range'_succ]
  simp

theorem getD_cons_zero' (a : Nat) (t : List Nat) : (a :: t).getD 0 0 = a := rfl

theorem eraseIdx_cons_zero' (a : Nat) (t : List Nat) : (a :: t).eraseIdx 0 = t := rfl

theorem schedStep_window_success (co : Nat → Nat → AOutcome) (n C a : Nat)
    (res att : List Nat) (r : Nat) (hC : 0 < C) (ha : a < n)
    (hco : co a (att.getD a 0) = .success) :
    schedStep co n C 0 (windowState n C a res att r) =
      windowState n C (a + 1) (res ++ [a]) (att.set a (att.getD a 0 + 1)) r := by
  have hws : windowState n C a res att r =
      ⟨min (a + C) n, a :: List.range' (a + 1) (min (a + C) n - a - 1), res, att, r⟩ := by
    unfold windowState
    rw [range'_cons_of_pos a _ (by omega)]
  rw [hws]
  simp only [schedStep, List.length_cons, ite_self, getD_cons_zero', eraseIdx_cons_zero', hco]
  unfold refill
  rw [SchedState.mk.injEq]
  simp only [List.length_range']
  have hidx : min (a + C) n + min (C - (min (a + C) n - a - 1)) (n - min (a + C) n) =
      min (a + 1 + C) n := by omega
  refine ⟨hidx, ?_, rfl, rfl, rfl⟩
  unfold windowState
  set m2 := min (a + C) n - a - 1 with hm2
  rw [show min (a + C) n = a + 1 + 1 * m2 from by omega]
  rw [List.range'_append]
  congr 1
  omega

theorem schedStep_window_captcha (co : Nat → Nat → AOutcome) (n C k : Nat)
    (res att : List Nat) (r : Nat) (hC : 0 < C) (hk : k < n)
    (hco : co k (att.getD k 0) = .captcha) :
    schedStep co n C 0 (windowState n C k res att r) =
      windowState n C k res (att.set k (att.getD k 0 + 1)) (r + 1) := by
  have hws : windowState n C k res att r =
      ⟨min (k + C) n, k :: List.range' (k + 1) (min (k + C) n - k - 1), res, att, r⟩ := by
    unfold windowState
    rw [range'_cons_of_pos k _ (by omega)]
  rw [hws]
  simp only [schedStep, List.length_cons, ite_self, getD_cons_zero', eraseIdx_cons_zero', hco]
  unfold refill windowState
  rw [SchedState.mk.injEq]
  simp only [List.length_nil, List.nil_append]
  refine ⟨by omega, ?_, trivial, trivial, trivial⟩
  congr 1
  omega

theorem schedRun_window_success (co : Nat → Nat → AOutcome) (n C : Nat) (hC : 0 < C) :
    ∀ (ps : List Nat) (a : Nat) (res att : List Nat) (r : Nat),
    (∀ p ∈ ps, p = 0) → n - a ≤ ps.length →
    (∀ j, a ≤ j → j < n → co j (att.getD j 0) = .success) →
    ∃ att2, schedRun co n C ps (windowState n C a res att r) =
      ⟨n, [], res ++ List.range' a (n - a), att2, r⟩ := by
  intro ps
  induction ps with
  | nil =>
    intro a res att r hps hlen hsucc
    refine ⟨att, ?_⟩
    simp only [List.length_nil] at hlen
    have ha : n ≤ a := by omega
    show windowState n C a res att r = _
    unfold windowState
    rw [SchedState.mk.injEq]
    refine ⟨by omega, ?_, ?_, rfl, rfl⟩
    · rw [show min (a + C) n - a = 0 from by omega]
      rfl
    · rw [show n - a = 0 from by omega]
      simp
  | cons p ps ih =>
    intro a res att r hps hlen hsucc
    by_cases ha : a < n
    · have hp0 : p = 0 := hps p (List.mem_cons_self p ps)
      have hne : ((windowState n C a res att r).running).isEmpty = false := by
        unfold windowState
        rw [range'_cons_of_pos a _ (by omega)]
        rfl
      rw [schedRun, if_neg (by rw [hne]; exact Bool.false_ne_true)]
      rw [hp0, schedStep_window_success co n C a res att r hC ha
        (hsucc a (Nat.le_refl a) ha)]
      obtain ⟨att2, heq⟩ := ih (a + 1) (res ++ [a]) (att.set a (att.getD a 0 + 1)) r
        (fun q hq => hps q (List.mem_cons_of_mem p hq))
        (by simp only [List.length_cons] at hlen; omega)
        (fun j hj1 hj2 => by
          rw [getD_set_of_ne att a j _ (by omega)]
          exact hsucc j (by omega) hj2)
      refine ⟨att2, ?_⟩
      rw [heq]
      rw [SchedState.mk.injEq]
      refine ⟨rfl, rfl, ?_, rfl, rfl⟩
      rw [List.append_assoc]
      congr 1
      rw [show n - a = (n - (a + 1)) + 1 from by omega, List.range'_succ]
      rfl
    · refine ⟨att, ?_⟩
      have hrun_nil : (windowState n C a res att r).running = [] := by
        unfold windowState
        rw [show min (a + C) n - a = 0 from by omega]
        rfl
      rw [schedRun, if_pos (by rw [hrun_nil]; rfl)]
      show windowState n C a res att r = _
      unfold windowState
      rw [SchedState.mk.injEq]
      refine ⟨by omega, ?_, ?_, rfl, rfl⟩
      · rw [show min (a + C) n - a = 0 from by omega]
        rfl
      · rw [show n - a = 0 from by omega]
        simp

theorem schedRun_window_prefix (co : Nat → Nat → AOutcome) (n C : Nat) (hC : 0 < C) :
    ∀ (m : Nat) (ps : List Nat) (a : Nat) (res att : List Nat) (r : Nat),
    (∀ p ∈ ps, p = 0) → m ≤ ps.length → a + m ≤ n →
    (∀ j, a ≤ j → j < a + m → co j (att.getD j 0) = .success) →
    ∃ att2, att2.length = att.length ∧
      (∀ j, j < a ∨ a + m ≤ j → att2.getD j 0 = att.getD j 0) ∧
      schedRun co n C ps (windowState n C a res att r) =
        schedRun co n C (ps.drop m) (windowState n C (a + m) (res ++ List.range' a m) att2 r) := by
  intro m
  induction m with
  | zero =>
    intro ps a res att r hps hlen ha hsucc
    refine ⟨att, rfl, fun j _ => rfl, ?_⟩
    simp
  | succ m ih =>
    intro ps a res att r hps hlen ha hsucc
    cases ps with
    | nil => simp at hlen
    | cons p ps' =>
      have hp0 : p = 0 := hps p (List.mem_cons_self p ps')
      have hane : a < n := by omega
      have hne : ((windowState n C a res att r).running).isEmpty = false := by
        unfold windowState
        rw [range'_cons_of_pos a _ (by omega)]
        rfl
      rw [schedRun, if_neg (by rw [hne]; exact Bool.false_ne_true)]
      rw [hp0, schedStep_window_success co n C a res att r hC hane
        (hsucc a (Nat.le_refl a) (by omega))]
      obtain ⟨att2, hl2, hpres, heq⟩ := ih ps' (a + 1) (res ++ [a])
        (att.set a (att.getD a 0 + 1)) r
        (fun q hq => hps q (List.mem_cons_of_mem p hq))
        (by simp only [List.length_cons] at hlen; omega) (by omega)
        (fun j hj1 hj2 => by
          rw [getD_set_of_ne att a j _ (by omega)]
          exact hsucc j (by omega) (by omega))
      refine ⟨att2, by rw [hl2, List.length_set], ?_, ?_⟩
      · intro j hj
        rw [hpres j (by omega), getD_set_of_ne att a j _ (by omega)]
      · rw [heq]
        have h1 : a + 1 + m = a + (m + 1) := by omega
        have h2 : res ++ [a] ++ List.range' (a + 1) m = res ++ List.range' a (m + 1) := by
          rw [List.append_assoc, List.range'_succ]
          rfl
        rw [h1, h2]
        rfl

theorem initSched_eq (n C : Nat) :
    initSched n C = windowState n C 0 [] (List.replicate n 0) 0 := by
  unfold initSched refill windowState
  rw [SchedState.mk.injEq]
  simp only [List.length_nil, List.nil_append]
  refine ⟨by omega, ?_, trivial, trivial, trivial⟩
  congr 1
  omega

/-- Claim C1 (counterexample): the restart does NOT resume from "the first
reference not yet present".  With a window of 2, if item 1 completes before
item 0 and item 0 then raises CAPTCHA, `run_search_async` resets the cursor
to item 0's index and re-enqueues item 1 as well, so item 1 is processed
twice: the result list ends as [1, 0, 1], which has a duplicate. -/
theorem c1_resume_counterexample :
    (schedRun (c1Outcomes 0) 2 2 [1, 0, 0, 0] (initSched 2 2)).results = [1, 0, 1] ∧
    (schedRun (c1Outcomes 0) 2 2 [1, 0, 0, 0] (initSched 2 2)).running = [] ∧
    ¬ (schedRun (c1Outcomes 0) 2 2 [1, 0, 0, 0] (initSched 2 2)).results.Nodup := by
  decide

/-- Claim C1 (amended): when completions happen in submission order, a
single CAPTCHA at item `k` (first attempt only) makes the scheduler restart
from index `k` and the run finishes with exactly the `n` item references in
order and without duplication, after exactly one browser restart. -/
theorem c1_resume_inorder (n C k : Nat) (ps : List Nat)
    (hC : 0 < C) (hk : k < n) (hps : ∀ p ∈ ps, p = 0)
    (hlen : n + 1 ≤ ps.length) :
    (schedRun (c1Outcomes k) n C ps (initSched n C)).results = List.range n ∧
    (schedRun (c1Outcomes k) n C ps (initSched n C)).running = [] ∧
    (schedRun (c1Outcomes k) n C ps (initSched n C)).restarts = 1 := by
  rw [initSched_eq]
  obtain ⟨att2, hl2, hpres, heq⟩ := schedRun_window_prefix (c1Outcomes k) n C hC k ps 0
    [] (List.replicate n 0) 0 hps (by omega) (by omega)
    (fun j hj1 hj2 => by
      rw [getD_replicate]
      unfold c1Outcomes
      rw [if_neg (by omega)])
  rw [List.length_replicate] at hl2
  simp only [Nat.zero_add, List.nil_append] at heq
  rw [heq]
  have hld : (ps.drop k).length = ps.length - k := List.length_drop k ps
  cases hdk : ps.drop k with
  | nil =>
    exfalso
    rw [hdk] at hld
    simp only [List.length_nil] at hld
    omega
  | cons p ps' =>
    rw [hdk] at hld
    simp only [List.length_cons] at hld
    have hp0 : p = 0 := hps p (List.mem_of_mem_drop
      (hdk ▸ List.mem_cons_self p ps'))
    have hattk : att2.getD k 0 = 0 := by
      rw [hpres k (Or.inr (by omega)), getD_replicate]
    have hne : ((windowState n C k (List.range' 0 k) att2 0).running).isEmpty = false := by
      unfold windowState
      rw [range'_cons_of_pos k _ (by omega)]
      rfl
    rw [schedRun, if_neg (by rw [hne]; exact Bool.false_ne_true), hp0]
    rw [schedStep_window_captcha (c1Outcomes k) n C k (List.range' 0 k) att2 0 hC hk
      (by rw [hattk]; unfold c1Outcomes; rw [if_pos ⟨rfl, rfl⟩])]
    obtain ⟨attF, hfin⟩ := schedRun_window_success (c1Outcomes k) n C hC ps' k
      (List.range' 0 k) (att2.set k (att2.getD k 0 + 1)) 1
      (fun q hq => hps q (List.mem_of_mem_drop
        (hdk ▸ List.mem_cons_of_mem p hq)))
      (by omega)
      (fun j hj1 hj2 => by
        by_cases hjk : j = k
        · subst hjk
          rw [getD_set_self att2 j _ (by omega), hattk]
          unfold c1Outcomes
          rw [if_neg (by omega)]
        · rw [getD_set_of_ne att2 k j _ (fun h => hjk h.symm),
            hpres j (Or.inr (by omega)), getD_replicate]
          unfold c1Outcomes
          rw [if_neg (by omega)])
    rw [hfin]
    refine ⟨?_, rfl, rfl⟩
    show List.range' 0 k ++ List.range' k (n - k) = List.range n
    rw [show List.range' k (n - k) = List.range' (0 + 1 * k) (n - k) from by
      congr 1
      omega]
    rw [List.range'_append, List.range_eq_range']
    congr 1
    omega

theorem c1_resume_inorder_witness :
    (schedRun (c1Outcomes 1) 2 1 [0, 0, 0] (initSched 2 1)).results = List.range 2 ∧
    (schedRun (c1Outcomes 1) 2 1 [0, 0, 0] (initSched 2 1)).running = [] ∧
    (schedRun (c1Outcomes 1) 2 1 [0, 0, 0] (initSched 2 1)).restarts = 1 :=
  c1_resume_inorder 2 1 1 [0, 0, 0] (by decide) (by decide) (by decide) (by decide)
